import Mathlib

/-!
Verification of the fullscreen-SVG detector of Sigil's preview window
(`src/MainUI/PreviewWindow.cpp`, `PreviewWindow::fixup_fullscreen_svg_images`,
lines 595-658) and of the caller-side textual rewrite in
`PreviewWindow::UpdatePage` (lines 297-319).

The DOM tree produced by the external Gumbo repair parser is embedded as the
inductive type `GNode`.  The GumboInterface helper functions used by the
detector (`get_all_nodes_with_tag`, `get_tag_name`, `get_local_text_of_node`,
`get_attributes_of_node`) are not part of this repository's sources here, so
they are modelled from the spec's description of the parser contract.
-/

/-- A parsed DOM node: an element with a tag name, an attribute list and an
ordered child list, or a text node with its character content.  This mirrors
the Gumbo node structure (`GUMBO_NODE_ELEMENT` vs the textual node kinds);
parent pointers are implicit (a node's parent is the unique node that lists
it among its children). -/
inductive GNode where
  | element (tag : String) (attrs : List (String × String)) (children : List GNode)
  | text (content : String)
deriving Repr

/-- Modelled from the spec: tag identity exposed by the parser
(`GumboInterface::get_tag_name`); text nodes have no element tag. -/
def getTagName : GNode → String
  | GNode.element tg _ _ => tg
  | GNode.text _ => "#text"

/-- Whether a node is an element carrying the given tag. -/
def isElemTagged (tg : String) : GNode → Bool
  | GNode.element t _ _ => t == tg
  | GNode.text _ => false

/-- The loop guard comparison of PreviewWindow.cpp:641:
`(anode->type == GUMBO_NODE_ELEMENT) && (anode->v.element.tag == GUMBO_TAG_BODY)`. -/
def isBodyElem : GNode → Bool
  | GNode.element tg _ _ => tg == "body"
  | GNode.text _ => false

/-- The child vector of an element (`body_node->v.element.children`). -/
def childrenOf : GNode → List GNode
  | GNode.element _ _ cs => cs
  | GNode.text _ => []

/-- The attribute list of an element node. -/
def attrsOf : GNode → List (String × String)
  | GNode.element _ as _ => as
  | GNode.text _ => []

/-- Modelled from the spec: attribute lookup with the empty string as the
default for a missing attribute (`QHash::value(name, "")` on the hash built by
`GumboInterface::get_attributes_of_node`). -/
def getAttr (attrs : List (String × String)) (name : String) : String :=
  match attrs.find? (fun p => p.1 == name) with
  | some p => p.2
  | none => ""

/-- `static const QStringList HEADERTAGS` of PreviewWindow.cpp:51. -/
def HEADERTAGS : List String := ["h1", "h2", "h3", "h4", "h5", "h6"]

/-- `const QStringList allowed_tags` of PreviewWindow.cpp:633. -/
def allowedTags : List String := ["div", "svg"]

mutual
/-- All nodes of a subtree in document (pre-)order, the root included. -/
def nodesOf : GNode → List GNode
  | GNode.element tg a cs => GNode.element tg a cs :: nodesOfList cs
  | GNode.text s => [GNode.text s]
/-- All nodes of a forest in document order. -/
def nodesOfList : List GNode → List GNode
  | [] => []
  | c :: cs => nodesOf c ++ nodesOfList cs
end

/-- Modelled from the spec: `GumboInterface::get_all_nodes_with_tag` — every
node of the tree whose element tag is `tg`, in document order. -/
def getAllNodesWithTag (tg : String) (root : GNode) : List GNode :=
  (nodesOf root).filter (fun n => isElemTagged tg n)

mutual
/-- Modelled from the spec: flattened text-content extraction for a node
(`GumboInterface::get_local_text_of_node`).  Whitespace-only text nodes are
classified by Gumbo as whitespace nodes and contribute nothing, which realises
the spec's "only whitespace/empty text content" rule for headings. -/
def localText : GNode → String
  | GNode.element _ _ cs => localTextList cs
  | GNode.text s => if s.data.all Char.isWhitespace then "" else s
/-- Flattened text of a forest, in document order. -/
def localTextList : List GNode → String
  | [] => ""
  | c :: cs => localText c ++ localTextList cs
end

/-- The scan of body's immediate children, PreviewWindow.cpp:612-631: skip
non-element children; skip `script`/`style` elements and headings with empty
flattened text; tally the rest into `elcount` and `child_names`; break as soon
as `elcount > 1`. -/
def scanChildren : List GNode → Nat → List String → Nat × List String
  | [], elcount, child_names => (elcount, child_names)
  | child :: rest, elcount, child_names =>
    match child with
    | GNode.text s =>
      -- child->type != GUMBO_NODE_ELEMENT: not inspected at all
      let _ := s
      scanChildren rest elcount child_names
    | GNode.element nm a cs =>
      let ignore0 := (nm == "script") || (nm == "style")
      let ignore_tag :=
        if HEADERTAGS.contains nm then
          ignore0 || (localText (GNode.element nm a cs)).isEmpty
        else ignore0
      let st :=
        if !ignore_tag then (elcount + 1, child_names ++ [nm])
        else (elcount, child_names)
      if st.1 > 1 then st else scanChildren rest st.1 st.2

mutual
/-- The unique root-to-node path of the first node (in document order)
satisfying `p`.  The C++ detector navigates from the image node upward via
parent pointers; in this value-level embedding the parent chain of the unique
image node is recovered as the reverse of this root-to-node path. -/
def findPath (p : GNode → Bool) : GNode → Option (List GNode)
  | GNode.element tg a cs =>
    if p (GNode.element tg a cs) then some [GNode.element tg a cs]
    else (findPathList p cs).map (fun path => GNode.element tg a cs :: path)
  | GNode.text s =>
    if p (GNode.text s) then some [GNode.text s] else none
/-- First successful `findPath` over a forest, in document order. -/
def findPathList (p : GNode → Bool) : List GNode → Option (List GNode)
  | [] => none
  | c :: cs =>
    match findPath p c with
    | some path => some path
    | none => findPathList p cs
end

/-- The ancestor-path loop of PreviewWindow.cpp:640-647.  The first argument
is the parent chain starting at the current `anode` (the image node at entry)
and ending at the tree root; the second is `path_pieces`.  While `anode` is
not the body element, the name of `anode->parent` is prepended unless the
parent itself is tagged `script` or `style`, and the walk moves to the parent.
An exhausted chain corresponds to `anode->parent == NULL`, which the C++ code
never survives meaningfully (it would read the tag of a null pointer); it is
modelled as loop exit and is unreachable when a body ancestor exists. -/
def whileLoop : List GNode → List String → List String
  | [], path_pieces => path_pieces
  | anode :: above, path_pieces =>
    if isBodyElem anode then path_pieces
    else
      match above with
      | [] => path_pieces
      | myparent :: _ =>
        let parent_name := getTagName myparent
        let path_pieces' :=
          if !(parent_name == "script") && !(parent_name == "style") then
            parent_name :: path_pieces
          else path_pieces
        whileLoop above path_pieces'

/-- `path_pieces` initialisation plus the loop, PreviewWindow.cpp:639-647:
the chain starts at the image node, and `path_pieces` starts as the image
node's own tag name. -/
def pathPieces : List GNode → List String
  | [] => []
  | anode :: above => whileLoop (anode :: above) [getTagName anode]

/-- Final stage of the detector, PreviewWindow.cpp:653-657: check that the
svg node's `width` and `height` attributes are both exactly `"100%"` (a
missing attribute reads as the empty string). -/
def dimensionsCheck (svg_node : GNode) : Bool :=
  let svgatts := attrsOf svg_node
  if getAttr svgatts "width" = "100%" ∧ getAttr svgatts "height" = "100%" then true
  else false

/-- Ancestor-path stage of the detector, PreviewWindow.cpp:638-649: build the
comma-joined ancestor path of the unique image node (walking parent pointers,
realised here as the reverse of the unique root-to-image path) and require it
to be exactly `body,div,svg,image` or `body,svg,image`. -/
def pathCheck (root svg_node : GNode) : Bool :=
  match findPath (isElemTagged "image") root with
  | none => false
  | some rootpath =>
    let apath := String.intercalate "," (pathPieces rootpath.reverse)
    if apath ≠ "body,div,svg,image" ∧ apath ≠ "body,svg,image" then false
    else dimensionsCheck svg_node

/-- Body-children stage of the detector, PreviewWindow.cpp:612-634: scan the
immediate children of body, and require
`!((elcount != 1) || !allowed_tags.contains(child_names.at(0)))`; the `||`
short-circuits, so `at(0)` is only evaluated when `elcount == 1`. -/
def childCheck (root svg_node body_node : GNode) : Bool :=
  let sc := scanChildren (childrenOf body_node) 0 []
  if sc.1 ≠ 1 then false
  else if !(allowedTags.contains (sc.2.headD "")) then false
  else pathCheck root svg_node

/-- `PreviewWindow::fixup_fullscreen_svg_images`, PreviewWindow.cpp:595-658.
The parsing step (`GumboInterface(text, "any_version")`) is external; the
function takes the parsed tree.  The parent-pointer walk from the unique
image node is realised through `findPath`/`pathPieces` (see `whileLoop`).
The straight-line body of the C++ function is split into the staged helpers
`childCheck` → `pathCheck` → `dimensionsCheck`, exactly in source order. -/
def fixup_fullscreen_svg_images (root : GNode) : Bool :=
  let image_tags := getAllNodesWithTag "image" root
  if image_tags.length ≠ 1 then false
  else
    let svg_tags := getAllNodesWithTag "svg" root
    if svg_tags.length ≠ 1 then false
    else
      let body_tags := getAllNodesWithTag "body" root
      if body_tags.length ≠ 1 then false
      else
        match image_tags, svg_tags, body_tags with
        | _ :: _, svg_node :: _, body_node :: _ => childCheck root svg_node body_node
        | _, _, _ => false

/-- The significant-child predicate of the spec (section 5 of the algorithm):
an element child of body that is not `script`/`style` and not a heading with
empty flattened text.  This is the spec-side full-scan formulation used to
state the refinement claim about the early-terminating scan. -/
def significant : GNode → Bool
  | GNode.text _ => false
  | GNode.element nm a cs =>
    !(((nm == "script") || (nm == "style")) ||
      (HEADERTAGS.contains nm && (localText (GNode.element nm a cs)).isEmpty))

/-- Full-scan count of significant children (no early termination). -/
def sigCount (cs : List GNode) : Nat := (cs.filter significant).length

/-- Full-scan name list of significant children (no early termination). -/
def sigNames (cs : List GNode) : List String :=
  (cs.filter significant).map getTagName

/-- Document skeleton used for concrete instances: an `html` element holding
exactly one `body` with the given attributes and children. -/
def mkDoc (battrs : List (String × String)) (kids : List GNode) : GNode :=
  GNode.element "html" [] [GNode.element "body" battrs kids]

/-- A bare SVG `image` element. -/
def imageNode : GNode := GNode.element "image" [] []

/-- An `svg` element with the given width/height attribute values. -/
def svgSized (w h : String) (kids : List GNode) : GNode :=
  GNode.element "svg" [("width", w), ("height", h)] kids

/-- The spec's end-to-end example document:
`<body><div><svg width="100%" height="100%"><image/></svg></div></body>`. -/
def docGood : GNode :=
  mkDoc [] [GNode.element "div" [] [svgSized "100%" "100%" [imageNode]]]


/-! ### Caller-side textual rewrite (`PreviewWindow::UpdatePage`, lines 297-319)

The two substitutions are driven by the regular expressions
`<\s*svg\s[^>]*height\s*=\s*["'](100%)["'][^>]*>` and the analogous `width`
pattern, matched case-sensitively here as the spec describes them.  The
QRegularExpression engine is external to the repository, so the matcher is
modelled from the spec: locate the first svg start tag that carries the
dimension attribute with value literal `100%`, and report the decomposition
of the text around the captured `100%`.  Text is modelled as `List Char`
(byte-level identity is the claim's concern). -/

/-- The four captured characters `100%`. -/
def pat100 : List Char := ['1', '0', '0', '%']

/-- A `\s` character of the pattern. -/
def isWSChar (c : Char) : Bool := c.isWhitespace

/-- The double or single quote of the `["']` character class. -/
def isQuoteChar (c : Char) : Bool := c = Char.ofNat 34 || c = Char.ofNat 39

/-- The `>` terminator of a start tag. -/
def gtChar : Char := '>'

/-- Strip an exact expected sequence from the front of a character list. -/
def stripPre : List Char → List Char → Option (List Char)
  | [], l => some l
  | _ :: _, [] => none
  | c :: cs, x :: l => if c = x then stripPre cs l else none

/-- Modelled from the spec: match `dim \s* = \s* ["'] 100% ["']` at the head
of `l`; on success return the consumed part before the capture and the rest
starting at the closing quote, so that `l` is consumed ++ `100%` ++ rest. -/
def matchDimAt (dim : List Char) (l : List Char) : Option (List Char × List Char) :=
  match stripPre dim l with
  | none => none
  | some l1 =>
    match stripPre ['='] (l1.dropWhile isWSChar) with
    | none => none
    | some l3 =>
      match l3.dropWhile isWSChar with
      | q :: l4 =>
        if isQuoteChar q then
          match stripPre pat100 l4 with
          | some (q2 :: l5) =>
            if isQuoteChar q2 then
              some (dim ++ l1.takeWhile isWSChar ++ ['='] ++ l3.takeWhile isWSChar ++ [q],
                q2 :: l5)
            else none
          | some [] => none
          | none => none
        else none
      | [] => none

/-- Modelled from the spec: search for the dimension pattern inside a start
tag, never crossing the `>` that closes the tag, and requiring that a closing
`>` exists after the capture (the regex ends in `[^>]*>`). -/
def findDimBeforeGt (dim : List Char) : List Char → Option (List Char × List Char)
  | [] => none
  | c :: rest =>
    if c = gtChar then none
    else
      match matchDimAt dim (c :: rest) with
      | some (pre, post) => if post.contains gtChar then some (pre, post) else none
      | none => (findDimBeforeGt dim rest).map (fun pr => (c :: pr.1, pr.2))

/-- Modelled from the spec: match `<\s*svg\s` at the head of `l`, returning
the consumed part and the remaining tag text. -/
def svgStart (l : List Char) : Option (List Char × List Char) :=
  match stripPre ['<'] l with
  | none => none
  | some l1 =>
    match stripPre ['s', 'v', 'g'] (l1.dropWhile isWSChar) with
    | some (c :: l2) =>
      if isWSChar c then some (['<'] ++ l1.takeWhile isWSChar ++ ['s', 'v', 'g', c], l2)
      else none
    | some [] => none
    | none => none

/-- Modelled from the spec: the first svg start tag of the text that carries
`dim = "100%"`, reported as the decomposition (everything before the captured
`100%`, everything after it). -/
def findSvgCapture (dim : List Char) : List Char → Option (List Char × List Char)
  | [] => none
  | c :: rest =>
    match svgStart (c :: rest) with
    | some (spre, inTag) =>
      match findDimBeforeGt dim inTag with
      | some (dpre, post) => some (spre ++ dpre, post)
      | none => (findSvgCapture dim rest).map (fun pr => (c :: pr.1, pr.2))
    | none => (findSvgCapture dim rest).map (fun pr => (c :: pr.1, pr.2))

/-- One substitution of UpdatePage: `text.replace(bp, n, repl)` with `bp`/`n`
the captured range of the first match — splice `repl` in place of the captured
`100%`, or leave the text unchanged when there is no match. -/
def replaceDim (dim repl text : List Char) : List Char :=
  match findSvgCapture dim text with
  | none => text
  | some (pre, post) => pre ++ repl ++ post

/-- The `height` attribute name searched first, PreviewWindow.cpp:298. -/
def heightChars : List Char := ['h', 'e', 'i', 'g', 'h', 't']

/-- The `width` attribute name searched second, PreviewWindow.cpp:309. -/
def widthChars : List Char := ['w', 'i', 'd', 't', 'h']

/-- Replacement text `100vh`, PreviewWindow.cpp:306. -/
def vhChars : List Char := ['1', '0', '0', 'v', 'h']

/-- Replacement text `100vw`, PreviewWindow.cpp:317. -/
def vwChars : List Char := ['1', '0', '0', 'v', 'w']

/-- The fixup branch of `PreviewWindow::UpdatePage`, lines 297-319: when the
detector accepts, first the height substitution then the width substitution
is applied to the original markup text; otherwise the text is untouched. -/
def updatePageFix (root : GNode) (text : List Char) : List Char :=
  if fixup_fullscreen_svg_images root then
    let t1 := replaceDim heightChars vhChars text
    replaceDim widthChars vwChars t1
  else text

/-! ### Pointer-level model of the ancestor loop (for the termination claim)

The C++ loop walks raw parent pointers.  `PtrDoc` models the pointer
structure directly: node identifiers with a partial parent map and a tag
name; `loopSteps` is the loop itself, instrumented with fuel so that
non-termination is observable as fuel exhaustion. -/

/-- A parent-pointer view of a parsed tree: node identifiers, the parent map
(`none` models a null parent pointer) and each node's tag name. -/
structure PtrDoc where
  parent : Nat → Option Nat
  tagOf : Nat → String

/-- Iterated parent-pointer dereference: the `n`-th ancestor, if the chain is
long enough. -/
def iterParent (D : PtrDoc) : Nat → Nat → Option Nat
  | 0, i => some i
  | n + 1, i =>
    match D.parent i with
    | none => none
    | some p => iterParent D n p

/-- The ancestor-path loop of PreviewWindow.cpp:641-647 over raw parent
pointers, with explicit fuel: `none` means the fuel ran out before the loop
exited (or a null parent pointer was dereferenced, which the C++ code does
not survive); `some path` means the loop terminated normally at `body`. -/
def loopSteps (D : PtrDoc) : Nat → Nat → List String → Option (List String)
  | 0, _, _ => none
  | fuel + 1, anode, path_pieces =>
    if D.tagOf anode == "body" then some path_pieces
    else
      match D.parent anode with
      | none => none
      | some myparent =>
        let parent_name := D.tagOf myparent
        let path_pieces' :=
          if !(parent_name == "script") && !(parent_name == "style") then
            parent_name :: path_pieces
          else path_pieces
        loopSteps D fuel myparent path_pieces'

/-- A document with two `image` nodes inside its single svg. -/
def docTwoImages : GNode :=
  mkDoc [] [svgSized "100%" "100%" [imageNode, imageNode]]

/-- A document with two nested divs between body and svg. -/
def docTwoDivs : GNode :=
  mkDoc [] [GNode.element "div" [] [GNode.element "div" [] [svgSized "100%" "100%" [imageNode]]]]

/-- A document matching the structure but with `height="99%"`. -/
def doc99 : GNode :=
  mkDoc [] [GNode.element "div" [] [svgSized "100%" "99%" [imageNode]]]

/-- A document matching the structure but with no `height` attribute. -/
def docNoHeight : GNode :=
  mkDoc [] [GNode.element "div" [] [GNode.element "svg" [("width", "100%")] [imageNode]]]

/-- A document whose body has two significant children. -/
def docTwoSig : GNode :=
  mkDoc [] [GNode.element "div" [] [svgSized "100%" "100%" [imageNode]],
            GNode.element "p" [] [GNode.text "hello"]]

/-- The prepend filter of the ancestor loop (PreviewWindow.cpp:644): a
chain node's name is kept when the node itself is tagged neither `script`
nor `style`. -/
def keepName (n : GNode) : Bool :=
  !(getTagName n == "script") && !(getTagName n == "style")

/-- A document whose image sits inside a `style` element inside the div:
ancestor chain `image, svg, style, div, body, html`. -/
def docStyleWrapped : GNode :=
  mkDoc [] [GNode.element "div" [] [GNode.element "style" [] [svgSized "100%" "100%" [imageNode]]]]

/-- A concrete three-node parent chain `image → svg → body`. -/
def ptrDocEx : PtrDoc where
  parent i := if i = 0 then some 1 else if i = 1 then some 2 else none
  tagOf i := if i = 0 then "image" else if i = 1 then "svg" else if i = 2 then "body" else ""

/-- Concrete markup text for the C7 witness. -/
def exText : List Char := "<svg height=\x22100%\x22 width=\x22100%\x22/>".toList

/-- Prefix of `exText` before the captured height `100%`. -/
def exPreH : List Char := "<svg height=\x22".toList

/-- Suffix of `exText` after the captured height `100%`. -/
def exPostH : List Char := "\x22 width=\x22100%\x22/>".toList

/-- Whether every entry of a child list is a whitespace-only text node (the
shape of a purely decorative heading's content). -/
def allWSText : List GNode → Bool
  | [] => true
  | GNode.text s :: rest => s.data.all Char.isWhitespace && allWSText rest
  | GNode.element _ _ _ :: _ => false

/-! ### Lemmas about the body-children scan -/

/-- The `ignore_tag` computation of PreviewWindow.cpp:621-624 is the negation
of the spec's significant-child predicate. -/
lemma ignoreTag_eq (nm : String) (a : List (String × String)) (cs : List GNode) :
    (if HEADERTAGS.contains nm then
        ((nm == "script") || (nm == "style")) || (localText (GNode.element nm a cs)).isEmpty
      else ((nm == "script") || (nm == "style")))
      = !(significant (GNode.element nm a cs)) := by
  by_cases h : nm ∈ HEADERTAGS
  · simp [significant, h]
  · simp [significant, h]

/-- Resuming the scan with one significant child already tallied: the loop
stops at the next significant child. -/
lemma scan_one (cs : List GNode) (a : String) :
    scanChildren cs 1 [a] = (min (1 + sigCount cs) 2, a :: (sigNames cs).take 1) := by
  induction cs with
  | nil => simp [scanChildren, sigCount, sigNames]
  | cons c rest ih =>
    cases c with
    | text s =>
      have hsig : significant (GNode.text s) = false := rfl
      simp [scanChildren, sigCount, sigNames, List.filter_cons, hsig, ih]
    | element nm at' kids =>
      rw [scanChildren]
      simp only [ignoreTag_eq]
      cases hs : significant (GNode.element nm at' kids) with
      | true =>
        simp [sigCount, sigNames, List.filter_cons, hs]
        exact ⟨by omega, rfl⟩
      | false =>
        simp [sigCount, sigNames, List.filter_cons, hs, ih]

/-- The scan started from an empty tally computes the truncated full-scan
count and the first (up to) two significant-child names. -/
lemma scan_zero (cs : List GNode) :
    scanChildren cs 0 [] = (min (sigCount cs) 2, (sigNames cs).take 2) := by
  induction cs with
  | nil => simp [scanChildren, sigCount, sigNames]
  | cons c rest ih =>
    cases c with
    | text s =>
      have hsig : significant (GNode.text s) = false := rfl
      simp [scanChildren, sigCount, sigNames, List.filter_cons, hsig, ih]
    | element nm at' kids =>
      rw [scanChildren]
      simp only [ignoreTag_eq]
      cases hs : significant (GNode.element nm at' kids) with
      | true =>
        simp [sigCount, sigNames, List.filter_cons, hs, scan_one]
        exact ⟨by omega, rfl⟩
      | false =>
        simp [sigCount, sigNames, List.filter_cons, hs, ih]

lemma dimensionsCheck_iff (s : GNode) :
    dimensionsCheck s = true ↔
      (getAttr (attrsOf s) "width" = "100%" ∧ getAttr (attrsOf s) "height" = "100%") := by
  show (if getAttr (attrsOf s) "width" = "100%" ∧ getAttr (attrsOf s) "height" = "100%"
        then true else false) = true ↔ _
  split
  case isTrue h => simpa using h
  case isFalse h => simpa using h

lemma pathCheck_iff (root s : GNode) :
    pathCheck root s = true ↔
      ((∃ rp, findPath (isElemTagged "image") root = some rp ∧
        (String.intercalate "," (pathPieces rp.reverse) = "body,div,svg,image" ∨
         String.intercalate "," (pathPieces rp.reverse) = "body,svg,image")) ∧
      dimensionsCheck s = true) := by
  unfold pathCheck
  cases hfp : findPath (isElemTagged "image") root with
  | none => simp
  | some rp =>
    show (if String.intercalate "," (pathPieces rp.reverse) ≠ "body,div,svg,image" ∧
            String.intercalate "," (pathPieces rp.reverse) ≠ "body,svg,image" then false
          else dimensionsCheck s) = true ↔ _
    by_cases hap : String.intercalate "," (pathPieces rp.reverse) ≠ "body,div,svg,image" ∧
        String.intercalate "," (pathPieces rp.reverse) ≠ "body,svg,image"
    · rw [if_pos hap]
      refine iff_of_false (by decide) ?_
      rintro ⟨⟨rp', hrp', hor⟩, _⟩
      rw [Option.some.injEq] at hrp'
      subst hrp'
      rcases hor with h | h
      · exact hap.1 h
      · exact hap.2 h
    · rw [if_neg hap]
      have hor : String.intercalate "," (pathPieces rp.reverse) = "body,div,svg,image" ∨
          String.intercalate "," (pathPieces rp.reverse) = "body,svg,image" := by
        rcases not_and_or.mp hap with h | h
        · exact Or.inl (not_not.mp h)
        · exact Or.inr (not_not.mp h)
      constructor
      · intro hd; exact ⟨⟨rp, rfl, hor⟩, hd⟩
      · rintro ⟨_, hd⟩; exact hd

lemma childCheck_iff (root s b : GNode) :
    childCheck root s b = true ↔
      ((scanChildren (childrenOf b) 0 []).1 = 1 ∧
       allowedTags.contains ((scanChildren (childrenOf b) 0 []).2.headD "") = true ∧
       pathCheck root s = true) := by
  show (if (scanChildren (childrenOf b) 0 []).1 ≠ 1 then false
        else if !(allowedTags.contains ((scanChildren (childrenOf b) 0 []).2.headD "")) then false
        else pathCheck root s) = true ↔ _
  by_cases h1 : (scanChildren (childrenOf b) 0 []).1 ≠ 1
  · rw [if_pos h1]
    refine iff_of_false (by decide) ?_
    rintro ⟨h, _, _⟩
    exact h1 h
  · rw [if_neg h1]
    cases hc : allowedTags.contains ((scanChildren (childrenOf b) 0 []).2.headD "") with
    | false => simp
    | true => simp [not_not.mp h1]

lemma fixup_true_iff (t : GNode) :
    fixup_fullscreen_svg_images t = true ↔
      ((getAllNodesWithTag "image" t).length = 1 ∧
       (getAllNodesWithTag "svg" t).length = 1 ∧
       (getAllNodesWithTag "body" t).length = 1 ∧
       (∃ s b, (getAllNodesWithTag "svg" t).head? = some s ∧
          (getAllNodesWithTag "body" t).head? = some b ∧
          childCheck t s b = true)) := by
  unfold fixup_fullscreen_svg_images
  by_cases h1 : (getAllNodesWithTag "image" t).length = 1
  case neg =>
    rw [if_pos h1]
    exact iff_of_false (by decide) (fun h => h1 h.1)
  rw [if_neg (fun hne => hne h1)]
  by_cases h2 : (getAllNodesWithTag "svg" t).length = 1
  case neg =>
    rw [if_pos h2]
    exact iff_of_false (by decide) (fun h => h2 h.2.1)
  rw [if_neg (fun hne => hne h2)]
  by_cases h3 : (getAllNodesWithTag "body" t).length = 1
  case neg =>
    rw [if_pos h3]
    exact iff_of_false (by decide) (fun h => h3 h.2.2.1)
  rw [if_neg (fun hne => hne h3)]
  obtain ⟨i, hi⟩ := List.length_eq_one.mp h1
  obtain ⟨s, hs⟩ := List.length_eq_one.mp h2
  obtain ⟨b, hb⟩ := List.length_eq_one.mp h3
  rw [hi, hs, hb]
  show childCheck t s b = true ↔ _
  constructor
  · intro h
    exact ⟨by simp, by simp, by simp, s, b, rfl, rfl, h⟩
  · rintro ⟨_, _, _, s', b', hs', hb', h⟩
    simp only [List.head?_cons, Option.some.injEq] at hs' hb'
    subst hs'
    subst hb'
    exact h

/-- C1: every document whose parsed tree has exactly one `image`, one `svg`
and one `body` node, whose body has exactly one significant element child
(after skipping script/style children and empty headings) tagged `div` or
`svg`, whose ancestor path from the image up to body is `body,div,svg,image`
or `body,svg,image`, and whose svg node carries `width` and `height`
attributes both equal to `"100%"`, is accepted by the detector. -/
theorem claim_C1 (t imgN svgN bodyN : GNode) (cn : String)
    (himg : getAllNodesWithTag "image" t = [imgN])
    (hsvg : getAllNodesWithTag "svg" t = [svgN])
    (hbody : getAllNodesWithTag "body" t = [bodyN])
    (hsig : sigCount (childrenOf bodyN) = 1)
    (hname : sigNames (childrenOf bodyN) = [cn])
    (hcn : cn = "div" ∨ cn = "svg")
    (hpath : ∃ rp, findPath (isElemTagged "image") t = some rp ∧
       (String.intercalate "," (pathPieces rp.reverse) = "body,div,svg,image" ∨
        String.intercalate "," (pathPieces rp.reverse) = "body,svg,image"))
    (hw : getAttr (attrsOf svgN) "width" = "100%")
    (hh : getAttr (attrsOf svgN) "height" = "100%") :
    fixup_fullscreen_svg_images t = true := by
  rw [fixup_true_iff]
  refine ⟨by rw [himg]; rfl, by rw [hsvg]; rfl, by rw [hbody]; rfl,
    svgN, bodyN, by rw [hsvg]; rfl, by rw [hbody]; rfl, ?_⟩
  rw [childCheck_iff]
  refine ⟨?_, ?_, ?_⟩
  · rw [scan_zero, hsig]
    rfl
  · rw [scan_zero]
    simp only [hname]
    rcases hcn with rfl | rfl <;> rfl
  · rw [pathCheck_iff]
    exact ⟨hpath, (dimensionsCheck_iff svgN).mpr ⟨hw, hh⟩⟩

/-- Witness for C1 at the spec's example document. -/
theorem claim_C1_witness : fixup_fullscreen_svg_images docGood = true :=
  claim_C1 docGood (GNode.element "image" [] [])
    (svgSized "100%" "100%" [imageNode])
    (GNode.element "body" [] [GNode.element "div" [] [svgSized "100%" "100%" [imageNode]]])
    "div" rfl rfl rfl rfl rfl (Or.inl rfl)
    ⟨(findPath (isElemTagged "image") docGood).getD [], rfl, Or.inl rfl⟩ rfl rfl

/-- C2: a parse tree whose `image`, `svg` or `body` tag count differs from 1
is rejected by the detector; in particular zero or two or more images. -/
theorem claim_C2 (t : GNode)
    (h : (getAllNodesWithTag "image" t).length ≠ 1 ∨
         (getAllNodesWithTag "svg" t).length ≠ 1 ∨
         (getAllNodesWithTag "body" t).length ≠ 1) :
    fixup_fullscreen_svg_images t = false := by
  cases hfx : fixup_fullscreen_svg_images t with
  | false => rfl
  | true =>
    exfalso
    have hx := (fixup_true_iff t).mp hfx
    rcases h with h | h | h
    · exact h hx.1
    · exact h hx.2.1
    · exact h hx.2.2.1

/-- Witness for C2 at a document with two image elements. -/
theorem claim_C2_witness : fixup_fullscreen_svg_images docTwoImages = false :=
  claim_C2 docTwoImages (Or.inl (by decide))

/-- C3: the detector rejects any document whose comma-joined ancestor path
from the image node up to and including body differs from both
`body,div,svg,image` and `body,svg,image` — equivalently, it returns true
only if the path is one of those two strings. -/
theorem claim_C3 (t : GNode) (rp : List GNode)
    (hrp : findPath (isElemTagged "image") t = some rp)
    (hne1 : String.intercalate "," (pathPieces rp.reverse) ≠ "body,div,svg,image")
    (hne2 : String.intercalate "," (pathPieces rp.reverse) ≠ "body,svg,image") :
    fixup_fullscreen_svg_images t = false := by
  cases hfx : fixup_fullscreen_svg_images t with
  | false => rfl
  | true =>
    exfalso
    obtain ⟨_, _, _, s, b, _, _, hcc⟩ := (fixup_true_iff t).mp hfx
    obtain ⟨rp', hrp', hor⟩ := ((pathCheck_iff t s).mp ((childCheck_iff t s b).mp hcc).2.2).1
    rw [hrp] at hrp'
    rw [Option.some.injEq] at hrp'
    subst hrp'
    rcases hor with h | h
    · exact hne1 h
    · exact hne2 h

/-- Witness for C3 at a document with two nested divs
(ancestor path `body,div,div,svg,image`). -/
theorem claim_C3_witness : fixup_fullscreen_svg_images docTwoDivs = false :=
  claim_C3 docTwoDivs ((findPath (isElemTagged "image") docTwoDivs).getD [])
    rfl (by decide) (by decide)

/-- C6: for a document passing all structural checks, the detector returns
true if and only if the svg node's `width` and `height` attributes are both
exactly `"100%"` (a missing attribute reads as the empty string). -/
theorem claim_C6 (t svgN bodyN : GNode) (rp : List GNode)
    (himg : (getAllNodesWithTag "image" t).length = 1)
    (hsvg : getAllNodesWithTag "svg" t = [svgN])
    (hbody : getAllNodesWithTag "body" t = [bodyN])
    (hsc : (scanChildren (childrenOf bodyN) 0 []).1 = 1)
    (hcn : allowedTags.contains ((scanChildren (childrenOf bodyN) 0 []).2.headD "") = true)
    (hrp : findPath (isElemTagged "image") t = some rp)
    (hap : String.intercalate "," (pathPieces rp.reverse) = "body,div,svg,image" ∨
           String.intercalate "," (pathPieces rp.reverse) = "body,svg,image") :
    (fixup_fullscreen_svg_images t = true ↔
      (getAttr (attrsOf svgN) "width" = "100%" ∧ getAttr (attrsOf svgN) "height" = "100%")) := by
  constructor
  · intro hfx
    obtain ⟨_, _, _, s, b, hs', _, hcc⟩ := (fixup_true_iff t).mp hfx
    rw [hsvg] at hs'
    rw [List.head?_cons, Option.some.injEq] at hs'
    subst hs'
    exact (dimensionsCheck_iff _).mp ((pathCheck_iff t _).mp ((childCheck_iff t _ b).mp hcc).2.2).2
  · rintro ⟨hw, hh⟩
    rw [fixup_true_iff]
    refine ⟨himg, by rw [hsvg]; rfl, by rw [hbody]; rfl,
      svgN, bodyN, by rw [hsvg]; rfl, by rw [hbody]; rfl, ?_⟩
    rw [childCheck_iff]
    exact ⟨hsc, hcn, (pathCheck_iff t svgN).mpr
      ⟨⟨rp, hrp, hap⟩, (dimensionsCheck_iff svgN).mpr ⟨hw, hh⟩⟩⟩

/-- Witness for C6: `height="99%"` and a missing `height` both yield
rejection. -/
theorem claim_C6_witness :
    fixup_fullscreen_svg_images doc99 = false ∧
    fixup_fullscreen_svg_images docNoHeight = false := by
  constructor
  · cases hfx : fixup_fullscreen_svg_images doc99 with
    | false => rfl
    | true =>
      exfalso
      have h := (claim_C6 doc99 (svgSized "100%" "99%" [imageNode])
        (GNode.element "body" [] [GNode.element "div" [] [svgSized "100%" "99%" [imageNode]]])
        ((findPath (isElemTagged "image") doc99).getD [])
        rfl rfl rfl rfl rfl rfl (Or.inl rfl)).mp hfx
      exact absurd h.2 (by decide)
  · cases hfx : fixup_fullscreen_svg_images docNoHeight with
    | false => rfl
    | true =>
      exfalso
      have h := (claim_C6 docNoHeight (GNode.element "svg" [("width", "100%")] [imageNode])
        (GNode.element "body" [] [GNode.element "div" [] [GNode.element "svg" [("width", "100%")] [imageNode]]])
        ((findPath (isElemTagged "image") docNoHeight).getD [])
        rfl rfl rfl rfl rfl rfl (Or.inl rfl)).mp hfx
      exact absurd h.2 (by decide)

/-- C8: the early-terminating child scan decides exactly like a full scan —
whenever body has more than one significant child the detector rejects,
regardless of children after the second significant one, and in general the
early scan's tally equals 1 exactly when the full significant-child count
is 1. -/
theorem claim_C8 (t b : GNode)
    (hb : (getAllNodesWithTag "body" t).head? = some b)
    (hgt : 1 < sigCount (childrenOf b)) :
    fixup_fullscreen_svg_images t = false ∧
    (∀ cs : List GNode, ((scanChildren cs 0 []).1 = 1 ↔ sigCount cs = 1)) := by
  constructor
  · cases hfx : fixup_fullscreen_svg_images t with
    | false => rfl
    | true =>
      exfalso
      obtain ⟨_, _, _, s, b', _, hb', hcc⟩ := (fixup_true_iff t).mp hfx
      rw [hb] at hb'
      rw [Option.some.injEq] at hb'
      subst hb'
      have hsc := ((childCheck_iff t s b).mp hcc).1
      rw [scan_zero] at hsc
      simp only [] at hsc
      omega
  · intro cs
    rw [scan_zero]
    simp only []
    omega

/-- Witness for C8 at a document whose body has a div child and a non-empty
p child. -/
theorem claim_C8_witness :
    fixup_fullscreen_svg_images docTwoSig = false :=
  (claim_C8 docTwoSig
    (GNode.element "body" [] [GNode.element "div" [] [svgSized "100%" "100%" [imageNode]],
      GNode.element "p" [] [GNode.text "hello"]])
    rfl (by decide)).1

/-- C9: the scan's name list always has exactly `elcount` entries, so the
`child_names.at(0)` access guarded by `elcount != 1` is in bounds. -/
theorem claim_C9 (cs : List GNode) (ec : Nat) (ns : List String)
    (h : scanChildren cs 0 [] = (ec, ns)) : ns.length = ec := by
  rw [scan_zero] at h
  rw [Prod.mk.injEq] at h
  obtain ⟨hec, hns⟩ := h
  subst hec
  subst hns
  simp [sigCount, sigNames, List.length_take]
  omega

/-- Witness for C9 at a single-div child list. -/
theorem claim_C9_witness : (["div"] : List String).length = 1 :=
  claim_C9 [GNode.element "div" [] []] 1 ["div"] rfl

/-- A node passing the body guard is named `body`. -/
lemma isBodyElem_name {n : GNode} (h : isBodyElem n = true) : getTagName n = "body" := by
  cases n with
  | text s => exact absurd h (by simp [isBodyElem])
  | element tg a cs =>
    simp only [isBodyElem, beq_iff_eq] at h
    simpa [getTagName] using h

/-- The loop exits immediately on the body element. -/
lemma whileLoop_at_body (b : GNode) (post : List GNode) (acc : List String)
    (hb : isBodyElem b = true) : whileLoop (b :: post) acc = acc := by
  rw [whileLoop.eq_def]
  simp [hb]

/-- Characterisation of the ancestor loop on a chain whose first body
element is `b`: the path lists, top-down, the names of the ancestors up to
and including `b` that are not themselves tagged `script`/`style`, followed
by the starting accumulator. -/
lemma whileLoop_filter (pre : List GNode) (b : GNode) (post : List GNode) (a0 : GNode)
    (acc : List String) (h0 : isBodyElem a0 = false) (hpre : ∀ x ∈ pre, isBodyElem x = false)
    (hb : isBodyElem b = true) :
    whileLoop (a0 :: (pre ++ b :: post)) acc =
      (((pre ++ [b]).filter keepName).map getTagName).reverse ++ acc := by
  induction pre generalizing a0 acc with
  | nil =>
    rw [List.nil_append, whileLoop, h0]
    simp only [Bool.false_eq_true, if_false]
    show whileLoop (b :: post)
        (if !(getTagName b == "script") && !(getTagName b == "style") then getTagName b :: acc
         else acc) = _
    have hbn : getTagName b = "body" := isBodyElem_name hb
    rw [hbn]
    rw [if_pos (by decide)]
    rw [whileLoop_at_body b post _ hb]
    have hkb : keepName b = true := by simp [keepName, hbn]
    simp [List.filter_cons, hkb, hbn]
  | cons p pre' ih =>
    have hp : isBodyElem p = false := hpre p (by simp)
    have hpre' : ∀ x ∈ pre', isBodyElem x = false := fun x hx => hpre x (by simp [hx])
    rw [List.cons_append, whileLoop, h0]
    simp only [Bool.false_eq_true, if_false]
    show whileLoop (p :: (pre' ++ b :: post))
        (if !(getTagName p == "script") && !(getTagName p == "style") then getTagName p :: acc
         else acc) = _
    cases hk : (!(getTagName p == "script") && !(getTagName p == "style")) with
    | true =>
      rw [if_pos rfl]
      rw [ih p (getTagName p :: acc) hp hpre']
      have hkp : keepName p = true := hk
      simp [List.filter_cons, hkp]
    | false =>
      rw [if_neg Bool.false_ne_true]
      rw [ih p acc hp hpre']
      have hkp : keepName p = false := hk
      simp [List.filter_cons, hkp]

/-- C4 (amended): when the detector builds the ancestor path from the image
node up to and including body, an ancestor is omitted exactly when that
ancestor itself is tagged `script` or `style`; all other ancestors' tag
names appear in the path in order (from body down to the image).  The
original claim — that an ancestor is omitted exactly when its parent is
tagged `script`/`style` — is refuted by `claim_C4_counterexample`. -/
theorem claim_C4 (a0 : GNode) (pre : List GNode) (b : GNode) (post : List GNode)
    (h0 : isBodyElem a0 = false) (hpre : ∀ x ∈ pre, isBodyElem x = false)
    (hb : isBodyElem b = true) :
    pathPieces (a0 :: (pre ++ b :: post)) =
      (((pre ++ [b]).filter keepName).map getTagName).reverse ++ [getTagName a0] := by
  rw [pathPieces]
  exact whileLoop_filter pre b post a0 [getTagName a0] h0 hpre hb

/-- Witness for C4 at the chain `image, svg, style, body`. -/
theorem claim_C4_witness :
    pathPieces [imageNode, GNode.element "svg" [] [], GNode.element "style" [] [],
        GNode.element "body" [] []] = ["body", "svg", "image"] :=
  (claim_C4 imageNode [GNode.element "svg" [] [], GNode.element "style" [] []]
    (GNode.element "body" [] []) [] rfl (by decide) rfl).trans (by decide)

/-- Counterexample to C4 as stated: in `docStyleWrapped` the image's
ancestor chain is `image, svg, style, div, body, html`.  The `svg` ancestor's
parent is the `style` element, yet `svg` appears in the path (the claim says
it is omitted); the `style` ancestor's parent is the `div` (not
`script`/`style`), yet `style` is omitted from the path (the claim says it
appears).  The detector even accepts this document. -/
theorem claim_C4_counterexample :
    (((findPath (isElemTagged "image") docStyleWrapped).getD []).reverse.map getTagName
        = ["image", "svg", "style", "div", "body", "html"]) ∧
    pathPieces ((findPath (isElemTagged "image") docStyleWrapped).getD []).reverse
        = ["body", "div", "svg", "image"] ∧
    "svg" ∈ pathPieces ((findPath (isElemTagged "image") docStyleWrapped).getD []).reverse ∧
    "style" ∉ pathPieces ((findPath (isElemTagged "image") docStyleWrapped).getD []).reverse ∧
    fixup_fullscreen_svg_images docStyleWrapped = true := by
  refine ⟨by decide, by decide, by decide, by decide, by decide⟩

/-- If iterating the parent map from `i` reaches a body-tagged node in `n`
steps, the ancestor loop returns normally within `n + 1` iterations, and its
result is stable for any larger fuel. -/
lemma loopSteps_term (D : PtrDoc) (b : Nat) (hbody : D.tagOf b = "body") :
    ∀ (n i : Nat) (acc : List String), iterParent D n i = some b →
      ∃ r, ∀ f, n + 1 ≤ f → loopSteps D f i acc = some r := by
  intro n
  induction n with
  | zero =>
    intro i acc h
    rw [iterParent, Option.some.injEq] at h
    subst h
    refine ⟨acc, ?_⟩
    intro f hf
    obtain ⟨f', rfl⟩ : ∃ f', f = f' + 1 := ⟨f - 1, by omega⟩
    rw [loopSteps]
    simp [hbody]
  | succ n ih =>
    intro i acc h
    rw [iterParent] at h
    cases hp : D.parent i with
    | none => rw [hp] at h; exact absurd h (by simp)
    | some p =>
      rw [hp] at h
      by_cases hib : D.tagOf i = "body"
      · refine ⟨acc, ?_⟩
        intro f hf
        obtain ⟨f', rfl⟩ : ∃ f', f = f' + 1 := ⟨f - 1, by omega⟩
        rw [loopSteps]
        simp [hib]
      · obtain ⟨r, hr⟩ := ih p
          (if !(D.tagOf p == "script") && !(D.tagOf p == "style") then D.tagOf p :: acc else acc) h
        refine ⟨r, ?_⟩
        intro f hf
        obtain ⟨f', rfl⟩ : ∃ f', f = f' + 1 := ⟨f - 1, by omega⟩
        rw [loopSteps]
        rw [show (D.tagOf i == "body") = false by simp [hib]]
        simp only [Bool.false_eq_true, if_false]
        rw [hp]
        exact hr f' (by omega)

/-- C10: for every parent-pointer structure in which the image node has a
body-tagged node among its ancestors (reachable by iterating the parent map),
the detector's ancestor-path loop terminates: with any sufficient fuel it
returns the same normal result, so the loop is a total function there. -/
theorem claim_C10 (D : PtrDoc) (i b n : Nat)
    (hreach : iterParent D n i = some b) (hbody : D.tagOf b = "body") :
    ∃ r, loopSteps D (n + 1) i [D.tagOf i] = some r ∧
      ∀ f, n + 1 ≤ f → loopSteps D f i [D.tagOf i] = some r := by
  obtain ⟨r, hr⟩ := loopSteps_term D b hbody n i [D.tagOf i] hreach
  exact ⟨r, hr (n + 1) le_rfl, hr⟩

/-- Witness for C10 at the concrete chain `ptrDocEx`. -/
theorem claim_C10_witness :
    ∃ r, loopSteps ptrDocEx (2 + 1) 0 [ptrDocEx.tagOf 0] = some r ∧
      ∀ f, 2 + 1 ≤ f → loopSteps ptrDocEx f 0 [ptrDocEx.tagOf 0] = some r :=
  claim_C10 ptrDocEx 0 2 2 (by decide) (by decide)

/-- A successful `stripPre` is an exact prefix decomposition. -/
lemma stripPre_sound : ∀ (p l r : List Char), stripPre p l = some r → l = p ++ r := by
  intro p
  induction p with
  | nil =>
    intro l r h
    rw [stripPre, Option.some.injEq] at h
    subst h
    rfl
  | cons c cs ih =>
    intro l r h
    cases l with
    | nil => rw [stripPre] at h; exact absurd h (by simp)
    | cons x l' =>
      rw [stripPre] at h
      by_cases hc : c = x
      · rw [if_pos hc] at h
        subst hc
        rw [List.cons_append, ih l' r h]
      · rw [if_neg hc] at h
        exact absurd h (by simp)

/-- A successful dimension-attribute match decomposes the input around the
captured `100%`. -/
lemma matchDimAt_sound {dim l pre post : List Char}
    (h : matchDimAt dim l = some (pre, post)) : l = pre ++ pat100 ++ post := by
  rw [matchDimAt] at h
  split at h
  · exact absurd h (by simp)
  · rename_i l1 hsp
    split at h
    · exact absurd h (by simp)
    · rename_i l3 heq
      split at h
      · rename_i q l4 hdw
        split at h
        case isTrue hq =>
          split at h
          · rename_i q2 l5 hp4
            split at h
            case isTrue hq2 =>
              rw [Option.some.injEq, Prod.mk.injEq] at h
              obtain ⟨hpre, hpost⟩ := h
              subst hpre
              subst hpost
              have e1 : l = dim ++ l1 := stripPre_sound _ _ _ hsp
              have e2 : l1.dropWhile isWSChar = ['='] ++ l3 := stripPre_sound _ _ _ heq
              have e3 : l1 = l1.takeWhile isWSChar ++ (['='] ++ l3) := by
                rw [← e2, List.takeWhile_append_dropWhile]
              have e4 : l3 = l3.takeWhile isWSChar ++ (q :: l4) := by
                rw [← hdw, List.takeWhile_append_dropWhile]
              have e5 : l4 = pat100 ++ (q2 :: l5) := stripPre_sound _ _ _ hp4
              conv_lhs => rw [e1, e3]
              rw [show (['='] ++ l3 : List Char) = '=' :: l3 from rfl]
              conv_lhs => rw [e4, e5]
              simp [List.append_assoc]
            case isFalse => exact absurd h (by simp)
          · exact absurd h (by simp)
          · exact absurd h (by simp)
        case isFalse => exact absurd h (by simp)
      · exact absurd h (by simp)

/-- A successful svg-start-tag match is a prefix decomposition. -/
lemma svgStart_sound {l c rest : List Char} (h : svgStart l = some (c, rest)) : l = c ++ rest := by
  rw [svgStart] at h
  split at h
  · exact absurd h (by simp)
  · rename_i l1 hlt
    split at h
    · rename_i c2 l2 hsvg
      split at h
      case isTrue hws =>
        rw [Option.some.injEq, Prod.mk.injEq] at h
        obtain ⟨h1, h2⟩ := h
        subst h1
        subst h2
        have e1 : l = ['<'] ++ l1 := stripPre_sound _ _ _ hlt
        have e2 : l1.dropWhile isWSChar = ['s', 'v', 'g'] ++ (c2 :: l2) :=
          stripPre_sound _ _ _ hsvg
        have e3 : l1 = l1.takeWhile isWSChar ++ (['s', 'v', 'g'] ++ (c2 :: l2)) := by
          rw [← e2, List.takeWhile_append_dropWhile]
        rw [e1]
        conv_lhs => rw [e3]
        simp [List.append_assoc]
      case isFalse => exact absurd h (by simp)
    · exact absurd h (by simp)
    · exact absurd h (by simp)

/-- A successful in-tag search decomposes the tag text around the captured
`100%`. -/
lemma findDimBeforeGt_sound (dim : List Char) : ∀ (l pre post : List Char),
    findDimBeforeGt dim l = some (pre, post) → l = pre ++ pat100 ++ post := by
  intro l
  induction l with
  | nil =>
    intro pre post h
    rw [findDimBeforeGt] at h
    exact absurd h (by simp)
  | cons ch rest ih =>
    intro pre post h
    rw [findDimBeforeGt] at h
    by_cases hgt : ch = gtChar
    · rw [if_pos hgt] at h
      exact absurd h (by simp)
    · rw [if_neg hgt] at h
      split at h
      · rename_i p0 q0 hm
        split at h
        · rw [Option.some.injEq, Prod.mk.injEq] at h
          obtain ⟨h1, h2⟩ := h
          subst h1
          subst h2
          exact matchDimAt_sound hm
        · exact absurd h (by simp)
      · rename_i hm
        rw [Option.map_eq_some'] at h
        obtain ⟨pr, hpr, hmk⟩ := h
        rw [Prod.mk.injEq] at hmk
        obtain ⟨h1, h2⟩ := hmk
        subst h1
        subst h2
        have hrest : rest = pr.1 ++ pat100 ++ pr.2 := ih pr.1 pr.2 hpr
        simp [hrest, List.append_assoc]

/-- A successful whole-text search decomposes the markup around the captured
`100%` of the first matching svg start tag. -/
lemma findSvgCapture_sound (dim : List Char) : ∀ (t pre post : List Char),
    findSvgCapture dim t = some (pre, post) → t = pre ++ pat100 ++ post := by
  intro t
  induction t with
  | nil =>
    intro pre post h
    rw [findSvgCapture] at h
    exact absurd h (by simp)
  | cons ch rest ih =>
    intro pre post h
    rw [findSvgCapture] at h
    split at h
    · rename_i spre inTag hsv
      split at h
      · rename_i dpre dpost hfd
        rw [Option.some.injEq, Prod.mk.injEq] at h
        obtain ⟨h1, h2⟩ := h
        subst h1
        subst h2
        have e1 : ch :: rest = spre ++ inTag := svgStart_sound hsv
        have e2 : inTag = dpre ++ pat100 ++ dpost := findDimBeforeGt_sound dim inTag dpre dpost hfd
        rw [e1, e2]
        simp [List.append_assoc]
      · rename_i hfd
        rw [Option.map_eq_some'] at h
        obtain ⟨pr, hpr, hmk⟩ := h
        rw [Prod.mk.injEq] at hmk
        obtain ⟨h1, h2⟩ := hmk
        subst h1
        subst h2
        have hrest : rest = pr.1 ++ pat100 ++ pr.2 := ih pr.1 pr.2 hpr
        simp [hrest, List.append_assoc]
    · rename_i hsv
      rw [Option.map_eq_some'] at h
      obtain ⟨pr, hpr, hmk⟩ := h
      rw [Prod.mk.injEq] at hmk
      obtain ⟨h1, h2⟩ := hmk
      subst h1
      subst h2
      have hrest : rest = pr.1 ++ pat100 ++ pr.2 := ih pr.1 pr.2 hpr
      simp [hrest, List.append_assoc]

/-- C7: when the detector returns true the caller performs exactly two
independent single-occurrence substitutions — the captured `100%` of the
first svg start tag carrying `height="100%"` becomes `100vh`, then the
captured `100%` of the first svg start tag carrying `width="100%"` becomes
`100vw` — and each substitution leaves every other character byte-identical
(the text decomposes as prefix ++ `100%` ++ suffix and the result is
prefix ++ replacement ++ suffix); when the detector returns false, the text
is returned unchanged. -/
theorem claim_C7 (root : GNode) (text : List Char) :
    (fixup_fullscreen_svg_images root = false → updatePageFix root text = text) ∧
    (fixup_fullscreen_svg_images root = true →
      updatePageFix root text = replaceDim widthChars vwChars (replaceDim heightChars vhChars text)) ∧
    (∀ dim repl t pre post : List Char, findSvgCapture dim t = some (pre, post) →
      t = pre ++ pat100 ++ post ∧ replaceDim dim repl t = pre ++ repl ++ post) ∧
    (∀ dim repl t : List Char, findSvgCapture dim t = none → replaceDim dim repl t = t) := by
  refine ⟨?_, ?_, ?_, ?_⟩
  · intro h
    rw [updatePageFix, h]
    simp
  · intro h
    rw [updatePageFix, h]
    simp
  · intro dim repl t pre post h
    refine ⟨findSvgCapture_sound dim t pre post h, ?_⟩
    rw [replaceDim, h]
  · intro dim repl t h
    rw [replaceDim, h]

/-- Witness for C7 at the accepted example document and a concrete markup
string. -/
theorem claim_C7_witness :
    (updatePageFix docGood exText =
      replaceDim widthChars vwChars (replaceDim heightChars vhChars exText)) ∧
    exText = exPreH ++ pat100 ++ exPostH ∧
    replaceDim heightChars vhChars exText = exPreH ++ vhChars ++ exPostH :=
  ⟨(claim_C7 docGood exText).2.1 (by decide),
   (claim_C7 docGood exText).2.2.1 heightChars vhChars exText exPreH exPostH (by decide)⟩

/-- A whitespace-text forest contributes exactly its own nodes. -/
lemma allWS_nodesOfList (ks : List GNode) (h : allWSText ks = true) : nodesOfList ks = ks := by
  induction ks with
  | nil => rfl
  | cons c rest ih =>
    cases c with
    | element tg a cs => exact absurd h (by simp [allWSText])
    | text s =>
      rw [allWSText, Bool.and_eq_true] at h
      rw [nodesOfList, nodesOf, ih h.2]
      rfl

/-- A whitespace-text forest contains no element with any tag. -/
lemma allWS_filterElems (tg : String) (ks : List GNode) (h : allWSText ks = true) :
    ks.filter (fun n => isElemTagged tg n) = [] := by
  induction ks with
  | nil => rfl
  | cons c rest ih =>
    cases c with
    | element tg' a cs => exact absurd h (by simp [allWSText])
    | text s =>
      rw [allWSText, Bool.and_eq_true] at h
      rw [List.filter_cons]
      simp only [isElemTagged, Bool.false_eq_true, if_false]
      exact ih h.2

/-- A whitespace-text forest flattens to the empty string. -/
lemma allWS_localTextList (ks : List GNode) (h : allWSText ks = true) : localTextList ks = "" := by
  induction ks with
  | nil => rfl
  | cons c rest ih =>
    cases c with
    | element tg a cs => exact absurd h (by simp [allWSText])
    | text s =>
      rw [allWSText, Bool.and_eq_true] at h
      rw [localTextList, localText, if_pos h.1, ih h.2]
      rfl

/-- No path into a whitespace-text forest satisfies an element predicate. -/
lemma allWS_findPathList (p : GNode → Bool) (ks : List GNode)
    (hp : ∀ s, p (GNode.text s) = false) (h : allWSText ks = true) :
    findPathList p ks = none := by
  induction ks with
  | nil => rfl
  | cons c rest ih =>
    cases c with
    | element tg a cs => exact absurd h (by simp [allWSText])
    | text s =>
      rw [allWSText, Bool.and_eq_true] at h
      rw [findPathList, findPath, hp s]
      simp only [Bool.false_eq_true, if_false]
      exact ih h.2

/-- A heading tag is none of the tags the detector treats specially. -/
lemma header_facts {htag : String} (hh : HEADERTAGS.contains htag = true) :
    (htag == "image") = false ∧ (htag == "svg") = false ∧ (htag == "body") = false ∧
    (htag == "script") = false ∧ (htag == "style") = false := by
  have hm : htag ∈ HEADERTAGS := by simpa using hh
  simp only [HEADERTAGS, List.mem_cons, List.not_mem_nil, or_false] at hm
  rcases hm with rfl | rfl | rfl | rfl | rfl | rfl <;> decide

/-- The body guard is determined by the tag name. -/
lemma isBody_eq_name (n : GNode) : isBodyElem n = (getTagName n == "body") := by
  cases n with
  | element tg a cs => rfl
  | text s => rfl

/-- A one-node chain exits the loop immediately (body or null parent). -/
lemma whileLoop_single (a : GNode) (acc : List String) : whileLoop [a] acc = acc := by
  show (if isBodyElem a then acc else acc) = acc
  exact ite_self acc

/-- One unfolding step of the ancestor loop on a chain of length two or
more. -/
lemma whileLoop_cons_cons (a p : GNode) (rest : List GNode) (acc : List String) :
    whileLoop (a :: p :: rest) acc =
      if isBodyElem a then acc
      else whileLoop (p :: rest)
        (if !(getTagName p == "script") && !(getTagName p == "style") then getTagName p :: acc
         else acc) := rfl

/-- The ancestor loop depends only on the tag names along the chain. -/
lemma whileLoop_congr : ∀ (c1 c2 : List GNode), c1.map getTagName = c2.map getTagName →
    ∀ acc, whileLoop c1 acc = whileLoop c2 acc := by
  intro c1
  induction c1 with
  | nil =>
    intro c2 h acc
    cases c2 with
    | nil => rfl
    | cons b bs => exact absurd h (by simp)
  | cons a as ih =>
    intro c2 h acc
    cases c2 with
    | nil => exact absurd h (by simp)
    | cons b bs =>
      simp only [List.map_cons, List.cons.injEq] at h
      obtain ⟨hab, htails⟩ := h
      cases as with
      | nil =>
        cases bs with
        | nil => rw [whileLoop_single, whileLoop_single]
        | cons q qs => exact absurd htails (by simp)
      | cons p ps =>
        cases bs with
        | nil => exact absurd htails (by simp)
        | cons q qs =>
          have hpq : getTagName p = getTagName q := by
            simpa using congrArg List.head? htails
          rw [whileLoop_cons_cons, whileLoop_cons_cons]
          rw [isBody_eq_name a, isBody_eq_name b, hab, hpq]
          cases hbody : (getTagName b == "body") with
          | true => rfl
          | false =>
            simp only [Bool.false_eq_true, if_false]
            exact ih (q :: qs) htails _

/-- The ancestor path depends only on the tag names along the chain. -/
lemma pathPieces_congr (c1 c2 : List GNode) (h : c1.map getTagName = c2.map getTagName) :
    pathPieces c1 = pathPieces c2 := by
  cases c1 with
  | nil =>
    cases c2 with
    | nil => rfl
    | cons b bs => exact absurd h (by simp)
  | cons a as =>
    cases c2 with
    | nil => exact absurd h (by simp)
    | cons b bs =>
      have hab : getTagName a = getTagName b := by
        simpa using congrArg List.head? h
      rw [pathPieces, pathPieces, hab]
      exact whileLoop_congr (a :: as) (b :: bs) h _

/-- The path stage depends only on the tag names of the found path. -/
lemma pathCheck_congr (t1 t2 s : GNode)
    (hfp : (findPath (isElemTagged "image") t1).map (List.map getTagName) =
           (findPath (isElemTagged "image") t2).map (List.map getTagName)) :
    pathCheck t1 s = pathCheck t2 s := by
  unfold pathCheck
  cases h1 : findPath (isElemTagged "image") t1 with
  | none =>
    cases h2 : findPath (isElemTagged "image") t2 with
    | none => rfl
    | some rp2 =>
      rw [h1, h2] at hfp
      exact absurd hfp (by simp)
  | some rp1 =>
    cases h2 : findPath (isElemTagged "image") t2 with
    | none =>
      rw [h1, h2] at hfp
      exact absurd hfp (by simp)
    | some rp2 =>
      rw [h1, h2] at hfp
      simp only [Option.map_some', Option.some.injEq] at hfp
      have hpp : pathPieces rp1.reverse = pathPieces rp2.reverse := by
        refine pathPieces_congr _ _ ?_
        rw [List.map_reverse, List.map_reverse, hfp]
      show (if String.intercalate "," (pathPieces rp1.reverse) ≠ "body,div,svg,image" ∧
              String.intercalate "," (pathPieces rp1.reverse) ≠ "body,svg,image" then false
            else dimensionsCheck s) =
           (if String.intercalate "," (pathPieces rp2.reverse) ≠ "body,div,svg,image" ∧
              String.intercalate "," (pathPieces rp2.reverse) ≠ "body,svg,image" then false
            else dimensionsCheck s)
      rw [hpp]

/-- The child stage depends only on the scan result and the path stage. -/
lemma childCheck_congr (t1 t2 s b1 b2 : GNode)
    (hsc : scanChildren (childrenOf b1) 0 [] = scanChildren (childrenOf b2) 0 [])
    (hpc : pathCheck t1 s = pathCheck t2 s) :
    childCheck t1 s b1 = childCheck t2 s b2 := by
  unfold childCheck
  rw [hsc, hpc]

/-- Acceptance transfers between trees whose detector-visible components
agree (tag-count lists, body-children scan, tag names along the image
path). -/
lemma fixup_true_transfer (t1 t2 : GNode)
    (himg : getAllNodesWithTag "image" t1 = getAllNodesWithTag "image" t2)
    (hsvg : getAllNodesWithTag "svg" t1 = getAllNodesWithTag "svg" t2)
    (hblen : (getAllNodesWithTag "body" t1).length = (getAllNodesWithTag "body" t2).length)
    (hbscan : ∀ b1 b2 r1 r2, getAllNodesWithTag "body" t1 = b1 :: r1 →
        getAllNodesWithTag "body" t2 = b2 :: r2 →
        scanChildren (childrenOf b1) 0 [] = scanChildren (childrenOf b2) 0 [])
    (hfp : (findPath (isElemTagged "image") t1).map (List.map getTagName) =
           (findPath (isElemTagged "image") t2).map (List.map getTagName))
    (h : fixup_fullscreen_svg_images t1 = true) : fixup_fullscreen_svg_images t2 = true := by
  rw [fixup_true_iff] at h ⊢
  obtain ⟨c1, c2, c3, s, b1, hs1, hb1, hcc⟩ := h
  have c3' : (getAllNodesWithTag "body" t2).length = 1 := by rw [← hblen]; exact c3
  obtain ⟨b2, hb2⟩ := List.length_eq_one.mp c3'
  obtain ⟨b1', hb1'⟩ := List.length_eq_one.mp c3
  have hbb : b1' = b1 := by
    rw [hb1'] at hb1
    simpa using hb1
  subst hbb
  refine ⟨by rw [← himg]; exact c1, by rw [← hsvg]; exact c2, c3', s, b2,
    by rw [← hsvg]; exact hs1, by rw [hb2]; rfl, ?_⟩
  rw [← childCheck_congr t1 t2 s b1' b2 (hbscan b1' b2 [] [] hb1' hb2)
    (pathCheck_congr t1 t2 s hfp)]
  exact hcc

/-- The detector result is determined by its detector-visible components. -/
lemma fixup_congr (t1 t2 : GNode)
    (himg : getAllNodesWithTag "image" t1 = getAllNodesWithTag "image" t2)
    (hsvg : getAllNodesWithTag "svg" t1 = getAllNodesWithTag "svg" t2)
    (hblen : (getAllNodesWithTag "body" t1).length = (getAllNodesWithTag "body" t2).length)
    (hbscan : ∀ b1 b2 r1 r2, getAllNodesWithTag "body" t1 = b1 :: r1 →
        getAllNodesWithTag "body" t2 = b2 :: r2 →
        scanChildren (childrenOf b1) 0 [] = scanChildren (childrenOf b2) 0 [])
    (hfp : (findPath (isElemTagged "image") t1).map (List.map getTagName) =
           (findPath (isElemTagged "image") t2).map (List.map getTagName)) :
    fixup_fullscreen_svg_images t1 = fixup_fullscreen_svg_images t2 := by
  cases hx1 : fixup_fullscreen_svg_images t1 with
  | true =>
    have := fixup_true_transfer t1 t2 himg hsvg hblen hbscan hfp hx1
    rw [this]
  | false =>
    cases hx2 : fixup_fullscreen_svg_images t2 with
    | false => rfl
    | true =>
      have := fixup_true_transfer t2 t1 himg.symm hsvg.symm hblen.symm
        (fun b2 b1 r2 r1 h2 h1 => (hbscan b1 b2 r1 r2 h1 h2).symm) hfp.symm hx2
      rw [hx1] at this
      exact absurd this (by decide)

/-- Document-order node enumeration distributes over forest append. -/
lemma nodesOfList_append (xs ys : List GNode) :
    nodesOfList (xs ++ ys) = nodesOfList xs ++ nodesOfList ys := by
  induction xs with
  | nil => rfl
  | cons c rest ih =>
    rw [List.cons_append, nodesOfList, nodesOfList, ih, List.append_assoc]

/-- Node enumeration of the two-level document skeleton. -/
lemma nodesOf_mkDoc (battrs : List (String × String)) (kids : List GNode) :
    nodesOf (mkDoc battrs kids) =
      mkDoc battrs kids :: GNode.element "body" battrs kids :: nodesOfList kids := by
  simp [mkDoc, nodesOf, nodesOfList]

/-- Tag search in a skeleton document, for tags other than `html`/`body`. -/
lemma getAll_mkDoc_other (tg : String) (battrs : List (String × String)) (kids : List GNode)
    (h1 : ("html" == tg) = false) (h2 : ("body" == tg) = false) :
    getAllNodesWithTag tg (mkDoc battrs kids) =
      (nodesOfList kids).filter (fun n => isElemTagged tg n) := by
  rw [getAllNodesWithTag, nodesOf_mkDoc, List.filter_cons, List.filter_cons]
  simp [mkDoc, isElemTagged, h1, h2]

/-- Tag search for `body` in a skeleton document finds the body first. -/
lemma getAll_mkDoc_body (battrs : List (String × String)) (kids : List GNode) :
    getAllNodesWithTag "body" (mkDoc battrs kids) =
      GNode.element "body" battrs kids ::
        (nodesOfList kids).filter (fun n => isElemTagged "body" n) := by
  rw [getAllNodesWithTag, nodesOf_mkDoc, List.filter_cons, List.filter_cons]
  simp [mkDoc, isElemTagged]

/-- The image path in a skeleton document prefixes `html, body`. -/
lemma findPath_mkDoc (battrs : List (String × String)) (kids : List GNode) :
    findPath (isElemTagged "image") (mkDoc battrs kids) =
      (findPathList (isElemTagged "image") kids).map
        (fun q => mkDoc battrs kids :: GNode.element "body" battrs kids :: q) := by
  cases hF : findPathList (isElemTagged "image") kids with
  | none => simp [mkDoc, findPath, findPathList, isElemTagged, hF]
  | some q => simp [mkDoc, findPath, findPathList, isElemTagged, hF]

/-- First-match search distributes over forest append. -/
lemma findPathList_append (p : GNode → Bool) (xs ys : List GNode) :
    findPathList p (xs ++ ys) =
      (match findPathList p xs with
       | some q => some q
       | none => findPathList p ys) := by
  induction xs with
  | nil => rfl
  | cons c rest ih =>
    rw [List.cons_append, findPathList, findPathList]
    cases hc : findPath p c with
    | some q => rfl
    | none => exact ih

/-- Inserting a matchless subtree does not change the first-match search. -/
lemma findPathList_insert (p : GNode → Bool) (xs ys : List GNode) (h : GNode)
    (hnone : findPath p h = none) :
    findPathList p (xs ++ h :: ys) = findPathList p (xs ++ ys) := by
  rw [findPathList_append, findPathList_append]
  cases hxs : findPathList p xs with
  | some q => rfl
  | none =>
    show findPathList p (h :: ys) = findPathList p ys
    rw [findPathList, hnone]

/-- C5 (amended): a heading child of body whose content is only
whitespace-text nodes is ignored — inserting it anywhere among body's
children leaves the detector's outcome unchanged — while a heading sibling
with non-empty flattened text counts as a significant child and, when
another significant child is present, makes the detector return false.  The
original claim, for an arbitrary empty-flattened-text heading, is refuted by
`claim_C5_counterexample`: such a heading may still contain element nodes
that change the tag counts. -/
theorem claim_C5 (htag : String) (hattrs battrs : List (String × String)) (hkids : List GNode)
    (xs ys : List GNode) (hh : HEADERTAGS.contains htag = true) :
    (allWSText hkids = true →
      fixup_fullscreen_svg_images (mkDoc battrs (xs ++ GNode.element htag hattrs hkids :: ys)) =
        fixup_fullscreen_svg_images (mkDoc battrs (xs ++ ys))) ∧
    ((localText (GNode.element htag hattrs hkids)).isEmpty = false → 1 ≤ sigCount (xs ++ ys) →
      fixup_fullscreen_svg_images (mkDoc battrs (xs ++ GNode.element htag hattrs hkids :: ys)) =
        false) := by
  obtain ⟨f1, f2, f3, f4, f5⟩ := header_facts hh
  constructor
  · intro hws
    have hfilter : ∀ tg : String, (htag == tg) = false →
        (nodesOfList (xs ++ GNode.element htag hattrs hkids :: ys)).filter
            (fun n => isElemTagged tg n) =
          (nodesOfList (xs ++ ys)).filter (fun n => isElemTagged tg n) := by
      intro tg htg
      rw [nodesOfList_append, nodesOfList_append, nodesOfList, nodesOf,
        allWS_nodesOfList hkids hws]
      have hk : hkids.filter (fun n => isElemTagged tg n) = [] := allWS_filterElems tg hkids hws
      have hH : isElemTagged tg (GNode.element htag hattrs hkids) = false := htg
      simp [List.filter_append, List.filter_cons, hH, hk]
    have hnone : findPath (isElemTagged "image") (GNode.element htag hattrs hkids) = none := by
      rw [findPath]
      have hpF : isElemTagged "image" (GNode.element htag hattrs hkids) = false := f1
      rw [hpF]
      simp [allWS_findPathList (isElemTagged "image") hkids (fun s => rfl) hws]
    have hsigF : significant (GNode.element htag hattrs hkids) = false := by
      have hlt : localText (GNode.element htag hattrs hkids) = "" := by
        rw [localText]
        exact allWS_localTextList hkids hws
      simp [significant, f4, f5, hlt]
      exact ⟨by simpa using hh, rfl⟩
    apply fixup_congr
    · rw [getAll_mkDoc_other "image" battrs _ rfl rfl, getAll_mkDoc_other "image" battrs _ rfl rfl]
      exact hfilter "image" f1
    · rw [getAll_mkDoc_other "svg" battrs _ rfl rfl, getAll_mkDoc_other "svg" battrs _ rfl rfl]
      exact hfilter "svg" f2
    · rw [getAll_mkDoc_body, getAll_mkDoc_body]
      simp [hfilter "body" f3]
    · intro b1 b2 r1 r2 hb1 hb2
      rw [getAll_mkDoc_body] at hb1 hb2
      injection hb1 with hb1h _
      injection hb2 with hb2h _
      rw [← hb1h, ← hb2h]
      show scanChildren (xs ++ GNode.element htag hattrs hkids :: ys) 0 [] =
        scanChildren (xs ++ ys) 0 []
      rw [scan_zero, scan_zero]
      simp [sigCount, sigNames, List.filter_append, List.filter_cons, hsigF]
    · rw [findPath_mkDoc, findPath_mkDoc]
      rw [findPathList_insert _ _ _ _ hnone]
      cases findPathList (isElemTagged "image") (xs ++ ys) with
      | none => rfl
      | some q => simp [mkDoc, getTagName]
  · intro hne hsig1
    have hsigT : significant (GNode.element htag hattrs hkids) = true := by
      simp [significant, f4, f5, hne]
    cases hfx : fixup_fullscreen_svg_images
        (mkDoc battrs (xs ++ GNode.element htag hattrs hkids :: ys)) with
    | false => rfl
    | true =>
      exfalso
      obtain ⟨_, _, _, s, b', hs', hb', hcc⟩ := (fixup_true_iff _).mp hfx
      rw [getAll_mkDoc_body, List.head?_cons, Option.some.injEq] at hb'
      subst hb'
      have hsc := ((childCheck_iff _ s _).mp hcc).1
      simp only [childrenOf] at hsc
      rw [scan_zero] at hsc
      simp only [] at hsc
      have e1 : sigCount (xs ++ GNode.element htag hattrs hkids :: ys) =
          sigCount xs + (1 + sigCount ys) := by
        simp [sigCount, List.filter_append, List.filter_cons, hsigT]
        omega
      have e2 : sigCount (xs ++ ys) = sigCount xs + sigCount ys := by
        simp [sigCount, List.filter_append]
      rw [e1] at hsc
      rw [e2] at hsig1
      omega

/-- Witness for C5: a whitespace-only `h1` sibling of the div leaves the
accepting document accepted, and an `h1` with text `Title` makes the
detector reject. -/
theorem claim_C5_witness :
    (fixup_fullscreen_svg_images
        (mkDoc [] [GNode.element "div" [] [svgSized "100%" "100%" [imageNode]],
          GNode.element "h1" [] [GNode.text " "]]) =
      fixup_fullscreen_svg_images docGood) ∧
    fixup_fullscreen_svg_images
        (mkDoc [] [GNode.element "div" [] [svgSized "100%" "100%" [imageNode]],
          GNode.element "h1" [] [GNode.text "Title"]]) = false := by
  constructor
  · exact (claim_C5 "h1" [] [] [GNode.text " "]
      [GNode.element "div" [] [svgSized "100%" "100%" [imageNode]]] [] rfl).1 (by decide)
  · exact (claim_C5 "h1" [] [] [GNode.text "Title"]
      [GNode.element "div" [] [svgSized "100%" "100%" [imageNode]]] [] rfl).2
      (by decide) (by decide)

/-- Counterexample to C5 as stated: an `h1` containing an empty `svg`
element has empty flattened text and is ignored by the child scan
(`significant` is false), yet adding it to the accepted document changes the
detector's outcome to false, because the document then has two `svg` nodes. -/
theorem claim_C5_counterexample :
    (localText (GNode.element "h1" [] [GNode.element "svg" [] []])).isEmpty = true ∧
    HEADERTAGS.contains "h1" = true ∧
    significant (GNode.element "h1" [] [GNode.element "svg" [] []]) = false ∧
    fixup_fullscreen_svg_images docGood = true ∧
    fixup_fullscreen_svg_images
        (mkDoc [] [GNode.element "div" [] [svgSized "100%" "100%" [imageNode]],
          GNode.element "h1" [] [GNode.element "svg" [] []]]) = false := by
  refine ⟨by decide, rfl, by decide, by decide, by decide⟩
